import Mathlib

/-!
# A verification development of klujax's dispatch layer (`klujax.py`)

klujax wraps an opaque native sparse solver (KLU) and a sparse
matrix-vector product as JAX primitives.  The Python module contains no
numerical kernel of its own: its content is (a) element-type dispatch
(`solve`, `coo_mul_vec`), (b) the XLA lowering with its buffer-layout
marshalling (`coo_vec_operation_xla`), (c) forward- and reverse-mode
differentiation rules (`solve_f64_value_and_jvp`, `solve_f64_transpose`),
and (d) the batching rule (`coo_vec_operation_vmap`).

This file shallowly embeds that dispatch layer:

* jax/numpy arrays become `Tensor α`: a row-major (C-order) flat data list
  together with a shape.  `reshapeT`, `transposeT`, `moveaxis0`,
  `broadcastLead`, `zerosLike` model `reshape`, `transpose`, `moveaxis`,
  `broadcast_to(b[None], (k, *b.shape))` and `lax.zeros_like_array` with
  numpy semantics.
* The opaque native kernels (`klujax_cpp.*`) and, inside the rewrite
  rules, the already-traced primitive applications, are parameters:
  either a `Kernels α` record or an explicit `operation`/`kernel`
  function argument, exactly as `coo_vec_operation_vmap` receives
  `operation` and the XLA lowering receives the custom-call target.
* Python `assert` statements and shape-unpacking failures become
  `Except` errors; code without a failure path is embedded as a total
  function.
* Element-type promotion is embedded at the dtype level (`DType`,
  `DTensor`, `solve_dispatch`, `coo_mul_vec_dispatch`), since the value
  payloads are irrelevant to the promotion rule.
-/

namespace Klujax

/-- A jax/numpy array: a shape and the row-major (C-order) flat data. -/
structure Tensor (α : Type) where
  shape : List Nat
  data : List α
deriving DecidableEq

/-- `np.prod` of a shape (the element count); `np.prod([]) = 1`. -/
def prodL (l : List Nat) : Nat := l.foldr (fun a b => a * b) 1

/-- Row-major flat index of a multi-index. -/
def flatIndex : List Nat → List Nat → Nat
  | _ :: srest, i :: irest => i * prodL srest + flatIndex srest irest
  | _, _ => 0

/-- Multi-index of a row-major flat position. -/
def unflatten : List Nat → Nat → List Nat
  | [], _ => []
  | _ :: rest, t => t / prodL rest :: unflatten rest (t % prodL rest)

/-- Position of the first occurrence of `m` in a list (its index). -/
def posIn (m : Nat) : List Nat → Nat
  | [] => 0
  | a :: rest => if a = m then 0 else posIn m rest + 1

/-- The data list fills the shape exactly. -/
def Tensor.wf {α : Type} (x : Tensor α) : Prop := x.data.length = prodL x.shape

instance {α : Type} (x : Tensor α) : Decidable x.wf :=
  inferInstanceAs (Decidable (x.data.length = prodL x.shape))

/-- `jnp.reshape`: same row-major data, new shape (the sizes agree at
every call site in the source). -/
def reshapeT {α : Type} (x : Tensor α) (s : List Nat) : Tensor α :=
  { shape := s, data := x.data }

/-- `jnp.transpose(x, perm)`: output axis `k` is input axis `perm[k]`, so
the output multi-index `i` reads input position `j` with `j[m] =
i[posIn m perm]`. -/
def transposeT {α : Type} [Inhabited α] (perm : List Nat) (x : Tensor α) : Tensor α :=
  { shape := perm.map (fun k => x.shape.getD k 0)
    data :=
      (List.range (prodL (perm.map (fun k => x.shape.getD k 0)))).map (fun t =>
        x.data.getD
          (flatIndex x.shape
            ((List.range x.shape.length).map (fun m =>
              (unflatten (perm.map (fun k => x.shape.getD k 0)) t).getD (posIn m perm) 0)))
          default) }

/-- `jnp.moveaxis(x, src, 0)`: transpose with permutation
`[src, *(axes other than src)]`. -/
def moveaxis0 {α : Type} [Inhabited α] (x : Tensor α) (src : Nat) : Tensor α :=
  transposeT (src :: (List.range x.shape.length).filter (fun k => k ≠ src)) x

/-- `lax.zeros_like_array`. -/
def zerosLike {α : Type} [Zero α] (x : Tensor α) : Tensor α :=
  { shape := x.shape, data := List.replicate x.data.length 0 }

/-- `jnp.broadcast_to(x[None], (k, *x.shape))`: replicate along a new
leading axis. -/
def broadcastLead {α : Type} (k : Nat) (x : Tensor α) : Tensor α :=
  { shape := k :: x.shape, data := (List.replicate k x.data).flatten }

/-! ## Primitives and registries

`klujax.py` creates four `core.Primitive` objects and registers rules for
them with decorators.  `ad_register` / `transpose_register` /
`vmap_register` populate `ad.primitive_jvps`, `ad.primitive_transposes`
and `batching.primitive_batchers`; the lists below are the key sets of
those tables after import (`@ad_register(solve_f64)` on
`solve_f64_value_and_jvp`, `@transpose_register(solve_f64)` on
`solve_f64_transpose`, and four `@vmap_register(...)` on
`coo_vec_operation_vmap`). -/

inductive Prim
  | solve_f64
  | solve_c128
  | coo_mul_vec_f64
  | coo_mul_vec_c128
deriving DecidableEq

/-- Keys of `ad.primitive_jvps` registered by this module. -/
def primitive_jvps : List Prim := [Prim.solve_f64]

/-- Keys of `ad.primitive_transposes` registered by this module. -/
def primitive_transposes : List Prim := [Prim.solve_f64]

/-- Keys of `batching.primitive_batchers` registered by this module
(decorators apply bottom-up; order in the table is irrelevant). -/
def primitive_batchers : List Prim :=
  [Prim.coo_mul_vec_c128, Prim.coo_mul_vec_f64, Prim.solve_c128, Prim.solve_f64]

/-! ## Element types and the type-promotion dispatch (`solve`, `coo_mul_vec`)

The user-facing functions only inspect `.dtype` of `Ax` and `b` to choose
a primitive and cast the operands, so the dispatch is embedded at the
dtype level. -/

inductive DType
  | int32
  | int64
  | float32
  | float64
  | complex64
  | complex128
  | complex256
deriving DecidableEq

/-- The tuple `COMPLEX_DTYPES = (np.complex64, np.complex128,
np.complex256, jnp.complex64, jnp.complex128)`; the jnp names alias the
np dtypes, so the membership list repeats them just as the source does. -/
def COMPLEX_DTYPES : List DType :=
  [DType.complex64, DType.complex128, DType.complex256,
   DType.complex64, DType.complex128]

/-- An array as the dispatch sees it: only its element type matters. -/
structure DTensor where
  dtype : DType
deriving DecidableEq

/-- `x.astype(d)`. -/
def DTensor.astype (_x : DTensor) (d : DType) : DTensor := { dtype := d }

/-- `x.dtype in COMPLEX_DTYPES`. -/
def hasComplexDtype (x : DTensor) : Bool := COMPLEX_DTYPES.contains x.dtype

/-- The spec's "complex element type", stated independently of the
source's membership list. -/
def isComplexD : DType → Bool
  | DType.complex64 => true
  | DType.complex128 => true
  | DType.complex256 => true
  | _ => false

/-- Dtype-level embedding of `solve` (lines 203-219): pick the primitive
by `any(x.dtype in COMPLEX_DTYPES for x in (Ax, b))` and cast the four
operands exactly as the chosen `bind` call does.  The function is total:
no element-type combination raises. -/
def solve_dispatch (Ai Aj Ax b : DTensor) : Prim × DTensor × DTensor × DTensor × DTensor :=
  if hasComplexDtype Ax || hasComplexDtype b then
    (Prim.solve_c128, Ai.astype DType.int32, Aj.astype DType.int32,
      Ax.astype DType.complex128, b.astype DType.complex128)
  else
    (Prim.solve_f64, Ai.astype DType.int32, Aj.astype DType.int32,
      Ax.astype DType.float64, b.astype DType.float64)

/-- Dtype-level embedding of `coo_mul_vec` (lines 222-238); same
selection rule with the multiply primitives. -/
def coo_mul_vec_dispatch (Ai Aj Ax b : DTensor) : Prim × DTensor × DTensor × DTensor × DTensor :=
  if hasComplexDtype Ax || hasComplexDtype b then
    (Prim.coo_mul_vec_c128, Ai.astype DType.int32, Aj.astype DType.int32,
      Ax.astype DType.complex128, b.astype DType.complex128)
  else
    (Prim.coo_mul_vec_f64, Ai.astype DType.int32, Aj.astype DType.int32,
      Ax.astype DType.float64, b.astype DType.float64)

/-- Dtype-level abstract evaluation (lines 99-104):
`ShapedArray(b.shape, b.dtype)` — the primitive's result takes the dtype
of the operand it was bound with. -/
def coo_vec_operation_abstract_eval (b : DTensor) : DTensor := { dtype := b.dtype }

/-! ## Value-level model of the two operations

Inside one traced float64 computation (the only place the source's
differentiation rules run: both are registered for `solve_f64`), every
array already has the primitive's element type, so the value-level
`solve` / `coo_mul_vec` reduce to the bound primitive, i.e. to the opaque
native kernel.  The kernels are collaborators outside this module
(`klujax_cpp`), so they are a parameter record. -/

/-- The two opaque native kernels of one element-type variant. -/
structure Kernels (α : Type) where
  solve : Klujax.Tensor Int → Klujax.Tensor Int → Klujax.Tensor α → Klujax.Tensor α → Klujax.Tensor α
  coo_mul_vec : Klujax.Tensor Int → Klujax.Tensor Int → Klujax.Tensor α → Klujax.Tensor α → Klujax.Tensor α

/-- Value-level `solve` within the float64 trace (the dtype dispatch is
`solve_dispatch`): bind the solve primitive, i.e. apply the kernel. -/
def solveV {α : Type} (K : Kernels α) (Ai Aj : Klujax.Tensor Int)
    (Ax b : Klujax.Tensor α) : Klujax.Tensor α :=
  K.solve Ai Aj Ax b

/-- Value-level `coo_mul_vec` within the float64 trace. -/
def coo_mul_vecV {α : Type} (K : Kernels α) (Ai Aj : Klujax.Tensor Int)
    (Ax b : Klujax.Tensor α) : Klujax.Tensor α :=
  K.coo_mul_vec Ai Aj Ax b

/-! ## Forward-mode rule (`solve_f64_value_and_jvp`, lines 171-187) -/

/-- A tangent as the JVP rule receives it: either the symbolic `ad.Zero`
or a concrete tangent array. -/
inductive Tangent (α : Type)
  | zero
  | tan (t : Klujax.Tensor α)
deriving DecidableEq

/-- `t if not isinstance(t, ad.Zero) else lax.zeros_like_array(primal)`. -/
def resolveTan {α : Type} [Zero α] (primal : Klujax.Tensor α) : Tangent α → Klujax.Tensor α
  | Tangent.zero => Klujax.zerosLike primal
  | Tangent.tan t => t

/-- Lines 171-187.  The rule materialises every `ad.Zero` tangent as an
exact zero buffer of the matching primal's shape, computes the primal
output `x = solve(Ai, Aj, Ax, b)`, builds `dA_x = coo_mul_vec(Ai, Aj,
dAx, x)` (constructed but not used: the `- dA_x` term is commented out in
the source), and returns the tangent `dx = solve(Ai, Aj, Ax, db)`. -/
def solve_f64_value_and_jvp {α : Type} [Zero α] (K : Kernels α)
    (arg_values : Klujax.Tensor Int × Klujax.Tensor Int × Klujax.Tensor α × Klujax.Tensor α)
    (arg_tangents : Tangent Int × Tangent Int × Tangent α × Tangent α) :
    Klujax.Tensor α × Klujax.Tensor α :=
  match arg_values, arg_tangents with
  | (Ai, Aj, Ax, b), (_dAi, _dAj, dAx, db) =>
    let dAx := resolveTan Ax dAx
    let db := resolveTan b db
    let x := solveV K Ai Aj Ax b
    let _dA_x := coo_mul_vecV K Ai Aj dAx x
    let dx := solveV K Ai Aj Ax db
    (x, dx)

/-! ## Reverse-mode (transpose) rule (`solve_f64_transpose`, lines 193-197) -/

/-- A primal argument of a transpose rule: the differentiated input
arrives as `ad.UndefinedPrimal`, the rest as concrete arrays. -/
inductive Primal (α : Type)
  | undefined
  | defined (t : Klujax.Tensor α)
deriving DecidableEq

/-- `ad.is_undefined_primal`. -/
def is_undefined_primal {α : Type} : Primal α → Bool
  | Primal.undefined => true
  | Primal.defined _ => false

inductive TransposeErr
  | assertUndefinedPrimal
deriving DecidableEq

/-- Lines 193-197: `assert ad.is_undefined_primal(b)`, then
`ct_b = solve(Ai, Aj, Ax, ct)` and `return None, None, None, ct_b`. -/
def solve_f64_transpose {α : Type} (K : Kernels α) (ct : Klujax.Tensor α)
    (Ai Aj : Klujax.Tensor Int) (Ax : Klujax.Tensor α) (b : Primal α) :
    Except TransposeErr
      (Option (Klujax.Tensor Int) × Option (Klujax.Tensor Int) ×
       Option (Klujax.Tensor α) × Option (Klujax.Tensor α)) :=
  if is_undefined_primal b then
    Except.ok (none, none, none, some (solveV K Ai Aj Ax ct))
  else
    Except.error TransposeErr.assertUndefinedPrimal

/-! ## Batching rule (`coo_vec_operation_vmap`, lines 244-285)

The rule receives the user-level operation (`solve` or `coo_mul_vec`) as
its first argument — here an explicit function parameter — plus the four
operands and their batch axes.  Python `assert` failures and the
tuple-unpacking of `b.shape` become `Except` errors. -/

inductive VmapErr
  | assertAiBatched
  | assertAjBatched
  | unpackError
  | invalidArguments
deriving DecidableEq

/-- Line 280: `b.reshape(n_lhs, n_col, n_rhs).transpose((1, 0, 2))
.reshape(n_col, -1)` (with `-1` resolving to `n_lhs * n_rhs`). -/
def combineB {α : Type} [Inhabited α] (b : Tensor α) (L C R : Nat) : Tensor α :=
  reshapeT (transposeT [1, 0, 2] (reshapeT b [L, C, R])) [C, L * R]

/-- Lines 244-285.  Case 1 (both `Ax` and `b` batched) reproduces the
source exactly, including the guard on line 258: `Ax` is moved to axis 0
only `if ab != 0` (the source tests `ab`, not `aAx`).  Case 2 (only `Ax`
batched) broadcasts `b` along a new leading axis of size `Ax.shape[0]`
(after the move).  Case 3 (only `b` batched) folds batch and trailing
operand axes into one axis of size `n_lhs * n_rhs`, calls the operation
once, reshapes the result to `(n_col, n_lhs, *n_rhs_list)` and reports
batch axis 1. -/
def coo_vec_operation_vmap {α : Type} [Inhabited α]
    (operation : Tensor Int → Tensor Int → Tensor α → Tensor α → Tensor α)
    (vector_arg_values : Tensor Int × Tensor Int × Tensor α × Tensor α)
    (batch_axes : Option Nat × Option Nat × Option Nat × Option Nat) :
    Except VmapErr (Tensor α × Nat) :=
  match vector_arg_values, batch_axes with
  | (Ai, Aj, Ax, b), (aAi, aAj, aAx, ab) =>
    if aAi.isSome then Except.error VmapErr.assertAiBatched
    else if aAj.isSome then Except.error VmapErr.assertAjBatched
    else
      match aAx, ab with
      | some aAx, some ab =>
        let Ax2 := if ab ≠ 0 then moveaxis0 Ax aAx else Ax
        let b2 := if ab ≠ 0 then moveaxis0 b ab else b
        Except.ok (operation Ai Aj Ax2 b2, 0)
      | some aAx, none =>
        let Ax2 := if aAx ≠ 0 then moveaxis0 Ax aAx else Ax
        let b2 := broadcastLead (Ax2.shape.headD 0) b
        Except.ok (operation Ai Aj Ax2 b2, 0)
      | none, some ab =>
        let b2 := if ab ≠ 0 then moveaxis0 b ab else b
        match b2.shape with
        | n_lhs :: n_col :: n_rhs_list =>
          let n_rhs := prodL n_rhs_list
          let b3 := combineB b2 n_lhs n_col n_rhs
          let result := operation Ai Aj Ax b3
          Except.ok (reshapeT result (n_col :: n_lhs :: n_rhs_list), 1)
        | _ => Except.error VmapErr.unpackError
      | none, none => Except.error VmapErr.invalidArguments

/-! ## XLA lowering (`coo_vec_operation_xla`, lines 114-165)

The custom-call target (the native kernel entry point) is a parameter:
`kernel n_col n_lhs n_rhs Anz Ai Aj Ax_flat b_flat`, the operand order of
the `CustomCallWithLayout` on line 146. -/

inductive XlaErr
  | unpackError
  | assertMaxOneBatch
  | assertBatchMismatch
deriving DecidableEq

/-- `*_n_lhs_list, _Anz = Ax_shape.dimensions()`: split the last
dimension off; fails on a rank-0 shape. -/
def splitLast : List Nat → Option (List Nat × Nat)
  | [] => none
  | a :: rest =>
    match splitLast rest with
    | none => some ([], a)
    | some (init, last) => some (a :: init, last)

/-- Lines 131-133: `Reshape(b, (n_lhs, n_col, n_rhs))`,
`Transpose(b, (0, 2, 1))`, `Reshape(b, (n_lhs * n_rhs * n_col,))`. -/
def flattenOperand {α : Type} [Inhabited α] (b : Tensor α) (L C R : Nat) : Tensor α :=
  reshapeT (transposeT [0, 2, 1] (reshapeT b [L, C, R])) [L * R * C]

/-- Lines 159-164: `Reshape(result, (n_lhs, n_rhs, n_col))`,
`Transpose(result, (0, 2, 1))`, final `Reshape` to the caller-facing
shape. -/
def unflattenResult {α : Type} [Inhabited α] (res : Tensor α) (L C R : Nat)
    (finalShape : List Nat) : Tensor α :=
  reshapeT (transposeT [0, 2, 1] (reshapeT res [L, R, C])) finalShape

/-- The marshalled kernel invocation shared by the batched and unbatched
branches (lines 122, 131-164): flatten `Ax` to `[n_lhs * Anz]`, flatten
the operand, call the kernel once, un-flatten its result.  `batched`
records whether `_n_lhs_list` was nonempty (it picks the final reshape,
lines 161-164). -/
def xlaCore {α : Type} [Inhabited α]
    (kernel : Nat → Nat → Nat → Nat → Tensor Int → Tensor Int → Tensor α → Tensor α → Tensor α)
    (Ai Aj : Tensor Int) (Ax b : Tensor α)
    (n_lhs Anz n_col : Nat) (rhs_list : List Nat) (batched : Bool) : Tensor α :=
  unflattenResult
    (kernel n_col n_lhs (prodL rhs_list) Anz Ai Aj
      (reshapeT Ax [n_lhs * Anz])
      (flattenOperand b n_lhs n_col (prodL rhs_list)))
    n_lhs n_col (prodL rhs_list)
    (if batched then n_lhs :: n_col :: rhs_list else n_col :: rhs_list)

/-- Lines 114-165.  Unpack `Ax.shape` as `(*n_lhs_list, Anz)`; `assert
len(n_lhs_list) < 2`; `n_lhs = np.prod(n_lhs_list)`; unpack `b.shape` as
`(n_lhs_b, n_col, *rhs)` when batched, `(n_col, *rhs)` with `n_lhs_b = 1`
otherwise; `assert n_lhs_b == n_lhs`; then marshal, invoke the kernel
once and un-flatten. -/
def coo_vec_operation_xla {α : Type} [Inhabited α]
    (kernel : Nat → Nat → Nat → Nat → Tensor Int → Tensor Int → Tensor α → Tensor α → Tensor α)
    (Ai Aj : Tensor Int) (Ax b : Tensor α) : Except XlaErr (Tensor α) :=
  match splitLast Ax.shape with
  | none => Except.error XlaErr.unpackError
  | some (n_lhs_list, Anz) =>
    if 2 ≤ n_lhs_list.length then Except.error XlaErr.assertMaxOneBatch
    else
      let n_lhs := prodL n_lhs_list
      if n_lhs_list.isEmpty then
        match b.shape with
        | n_col :: rhs_list =>
          if 1 ≠ n_lhs then Except.error XlaErr.assertBatchMismatch
          else Except.ok (xlaCore kernel Ai Aj Ax b n_lhs Anz n_col rhs_list false)
        | [] => Except.error XlaErr.unpackError
      else
        match b.shape with
        | n_lhs_b :: n_col :: rhs_list =>
          if n_lhs_b ≠ n_lhs then Except.error XlaErr.assertBatchMismatch
          else Except.ok (xlaCore kernel Ai Aj Ax b n_lhs Anz n_col rhs_list true)
        | _ => Except.error XlaErr.unpackError

/-! ## The refinement comparison for the claimed kernel buffer layout

The flattened-operand layout as the specification words it:
"operand-count-major, batch-second, column-minor", i.e. flat position
`(r * n_lhs + l) * n_col + c` holds the operand entry for batch `l`,
matrix column `c`, operand column `r`. -/

/-- Modelled from the spec: the claimed "operand-count-major,
batch-second, column-minor" flat layout of the operand buffer (the code's
actual layout is `flattenOperand`; this definition follows the
specification's words, for comparison). -/
def flattenOperandClaim {α : Type} [Inhabited α] (b : Tensor α) (L C R : Nat) : Tensor α :=
  { shape := [L * R * C]
    data :=
      (List.range (L * R * C)).map (fun t =>
        let r := t / (L * C)
        let l := t % (L * C) / C
        let c := t % C
        b.data.getD ((l * C + c) * R + r) default) }

/-! ## Concrete instances used by witnesses and counterexamples -/

/-- An operation argument that returns its `Ax` operand, used to observe
which `Ax` the batching rule hands to the operation. -/
def opProj : Tensor Int → Tensor Int → Tensor Int → Tensor Int → Tensor Int :=
  fun _ _ Ax _ => Ax

/-- A concrete kernel record (each kernel returns its operand buffer). -/
def kId : Kernels Int :=
  { solve := fun _ _ _ b => b, coo_mul_vec := fun _ _ _ b => b }

/-- A concrete custom-call target for the lowering (returns the
marshalled operand buffer). -/
def kEx : Nat → Nat → Nat → Nat → Tensor Int → Tensor Int → Tensor Int → Tensor Int → Tensor Int :=
  fun _ _ _ _ _ _ _ bflat => bflat

def AiEx : Tensor Int := { shape := [2], data := [0, 1] }
def AjEx : Tensor Int := { shape := [2], data := [1, 0] }
def AxEx : Tensor Int := { shape := [2], data := [5, 7] }
def bEx : Tensor Int := { shape := [2], data := [8, 9] }

/-- A non-zero tangent on the row-index array. -/
def dAiEx : Tensor Int := { shape := [2], data := [1, 0] }

/-- A non-zero tangent on the column-index array. -/
def dAjEx : Tensor Int := { shape := [2], data := [0, 1] }

/-- `Ax` with 3 nonzeros and a batch of 2 carried on axis 1. -/
def AxC3 : Tensor Int := { shape := [3, 2], data := [1, 2, 3, 4, 5, 6] }

/-- `b` with its batch of 2 on axis 0 and 3 matrix columns. -/
def bC3 : Tensor Int := { shape := [2, 3], data := [10, 20, 30, 40, 50, 60] }

/-- A batched operand: batch 2 on axis 0, 2 matrix columns. -/
def bC6 : Tensor Int := { shape := [2, 2], data := [1, 2, 3, 4] }

/-- Batched matrix values: batch 2 on axis 0, 3 nonzeros. -/
def AxC7 : Tensor Int := { shape := [2, 3], data := [1, 2, 3, 4, 5, 6] }

/-- Batched operand: batch 2, 1 matrix column, 2 trailing RHS columns. -/
def bC7 : Tensor Int := { shape := [2, 1, 2], data := [0, 1, 2, 3] }

/-- Matrix values with two leading batch dimensions (rank 3). -/
def AxC9 : Tensor Int := { shape := [2, 2, 2], data := [1, 2, 3, 4, 5, 6, 7, 8] }

/-- `Ax` with its batch of 2 carried on axis 1 (3 nonzeros). -/
def AxC8 : Tensor Int := { shape := [3, 2], data := [1, 2, 3, 4, 5, 6] }

/-! ## Helper lemmas on the tensor model -/

theorem prodL_nil : prodL ([] : List Nat) = 1 := rfl

theorem prodL_cons (a : Nat) (l : List Nat) : prodL (a :: l) = a * prodL l := rfl

theorem getD_range_map {β : Type} (f : Nat → β) (n t : Nat) (d : β) (h : t < n) :
    ((List.range n).map f).getD t d = f t := by
  rw [List.getD_eq_getElem?_getD, List.getElem?_map, List.getElem?_range h]
  rfl

theorem map_getD_range {β : Type} (l : List β) (d : β) :
    (List.range l.length).map (fun k => l.getD k d) = l := by
  induction l with
  | nil => rfl
  | cons a rest ih =>
    rw [List.length_cons, List.range_succ_eq_map, List.map_cons, List.map_map]
    simp only [Function.comp_def, Nat.succ_eq_add_one, List.getD_cons_zero,
      List.getD_cons_succ]
    rw [ih]

theorem unflatten_length (s : List Nat) (t : Nat) : (unflatten s t).length = s.length := by
  induction s generalizing t with
  | nil => rfl
  | cons a rest ih => simp [unflatten, ih]

theorem flatIndex_unflatten (s : List Nat) (t : Nat) (h : t < prodL s) :
    flatIndex s (unflatten s t) = t := by
  induction s generalizing t with
  | nil =>
    rw [prodL_nil] at h
    have ht : t = 0 := by omega
    subst ht; rfl
  | cons a rest ih =>
    have hP : 0 < prodL rest := by
      rcases Nat.eq_zero_or_pos (prodL rest) with h0 | h0
      · exfalso; rw [prodL_cons, h0, Nat.mul_zero] at h; omega
      · exact h0
    have hmod : t % prodL rest < prodL rest := Nat.mod_lt _ hP
    simp only [unflatten, flatIndex]
    rw [ih _ hmod]
    exact Nat.div_add_mod' t (prodL rest)

theorem posIn_map_succ (k : Nat) (l : List Nat) :
    posIn (k + 1) (l.map Nat.succ) = posIn k l := by
  induction l with
  | nil => rfl
  | cons a rest ih =>
    simp only [List.map_cons, posIn, Nat.succ_eq_add_one]
    by_cases h : a = k
    · simp [h]
    · have h1 : ¬ a + 1 = k + 1 := by omega
      simp [h, h1, ih]

theorem posIn_range (m n : Nat) (h : m < n) : posIn m (List.range n) = m := by
  induction n generalizing m with
  | zero => omega
  | succ n ih =>
    rw [List.range_succ_eq_map]
    cases m with
    | zero => rfl
    | succ k =>
      have hk : k < n := by omega
      simp only [posIn]
      have h0 : ¬ (0 : Nat) = k + 1 := by omega
      rw [if_neg h0, posIn_map_succ, ih k hk]

theorem getD_zero_headD {β : Type} (l : List β) (d : β) : l.getD 0 d = l.headD d := by
  cases l <;> rfl

theorem cons_filter_ne_zero_range (m : Nat) :
    0 :: (List.range (m + 1)).filter (fun k => k ≠ 0) = List.range (m + 1) := by
  rw [List.range_succ_eq_map]
  have h1 : List.filter (fun k => decide (k ≠ 0)) (0 :: (List.range m).map Nat.succ)
      = List.filter (fun k => decide (k ≠ 0)) ((List.range m).map Nat.succ) := by
    simp [List.filter_cons]
  have h2 : List.filter (fun k => decide (k ≠ 0)) ((List.range m).map Nat.succ)
      = (List.range m).map Nat.succ := by
    rw [List.filter_eq_self]
    intro a ha
    rcases List.mem_map.mp ha with ⟨b, _, hb⟩
    simp [← hb]
  rw [h1, h2]

theorem transposeT_range_id {α : Type} [Inhabited α] (x : Tensor α) (hwf : x.wf) :
    transposeT (List.range x.shape.length) x = x := by
  obtain ⟨s, d⟩ := x
  simp only [Tensor.wf] at hwf
  simp only [transposeT, Tensor.mk.injEq]
  have hshape : (List.range s.length).map (fun k => s.getD k 0) = s := map_getD_range s 0
  refine ⟨hshape, ?_⟩
  rw [hshape]
  have hmain : ∀ t ∈ List.range (prodL s),
      d.getD (flatIndex s ((List.range s.length).map (fun m =>
        (unflatten s t).getD (posIn m (List.range s.length)) 0))) default
      = d.getD t default := by
    intro t ht
    have htlt : t < prodL s := List.mem_range.mp ht
    have hinner : (List.range s.length).map (fun m =>
        (unflatten s t).getD (posIn m (List.range s.length)) 0) = unflatten s t := by
      have hcong : ∀ m ∈ List.range s.length,
          (unflatten s t).getD (posIn m (List.range s.length)) 0
          = (unflatten s t).getD m 0 := by
        intro m hm
        rw [posIn_range m s.length (List.mem_range.mp hm)]
      rw [List.map_congr_left hcong]
      have hlen : s.length = (unflatten s t).length := (unflatten_length s t).symm
      rw [hlen, map_getD_range]
    rw [hinner, flatIndex_unflatten s t htlt]
  rw [List.map_congr_left hmain]
  have hlen2 : prodL s = d.length := hwf.symm
  rw [hlen2, map_getD_range]

theorem moveaxis0_zero_id {α : Type} [Inhabited α] (x : Tensor α)
    (hwf : x.wf) (hne : x.shape ≠ []) : moveaxis0 x 0 = x := by
  have hlen : x.shape.length = (x.shape.length - 1) + 1 := by
    cases hs : x.shape with
    | nil => exact absurd hs hne
    | cons a rest => simp
  rw [moveaxis0, hlen, cons_filter_ne_zero_range, ← hlen]
  exact transposeT_range_id x hwf

theorem mul_add_lt {b B c C : Nat} (hb : b < B) (hc : c < C) : b * C + c < B * C :=
  calc b * C + c < b * C + C := by omega
    _ = (b + 1) * C := by ring
    _ ≤ B * C := Nat.mul_le_mul_right C hb

theorem unflatten3 (A B C' a b c : Nat) (hb : b < B) (hc : c < C') :
    unflatten [A, B, C'] (a * (B * C') + (b * C' + c)) = [a, b, c] := by
  have hC : 0 < C' := by omega
  have hBC : 0 < B * C' := Nat.mul_pos (by omega) hC
  have hx : b * C' + c < B * C' := mul_add_lt hb hc
  have hP2 : prodL [B, C'] = B * C' := by simp [prodL_cons, prodL_nil]
  have hP1 : prodL [C'] = C' := by simp [prodL_cons, prodL_nil]
  have ht : a * (B * C') + (b * C' + c) = (b * C' + c) + a * (B * C') := by ring
  simp only [unflatten, hP2, hP1, prodL_nil]
  rw [ht, Nat.add_mul_div_right _ _ hBC, Nat.div_eq_of_lt hx,
    Nat.add_mul_mod_self_right, Nat.mod_eq_of_lt hx]
  have ht2 : b * C' + c = c + b * C' := by ring
  rw [ht2, Nat.add_mul_div_right _ _ hC, Nat.div_eq_of_lt hc,
    Nat.add_mul_mod_self_right, Nat.mod_eq_of_lt hc, Nat.div_one]
  simp

theorem transpose021_entry {α : Type} [Inhabited α] (x : Tensor α) (L C R l c r : Nat)
    (hx : x.shape = [L, C, R]) (hl : l < L) (hc : c < C) (hr : r < R) :
    (transposeT [0, 2, 1] x).data.getD (l * (R * C) + (r * C + c)) default
      = x.data.getD (l * (C * R) + (c * R + r)) default := by
  have houtShape : List.map (fun k => x.shape.getD k 0) [0, 2, 1] = [L, R, C] := by
    rw [hx]; rfl
  have hP : prodL [L, R, C] = L * (R * C) := by simp [prodL_cons, prodL_nil]
  have ht : l * (R * C) + (r * C + c) < prodL [L, R, C] := by
    rw [hP]; exact mul_add_lt hl (mul_add_lt hr hc)
  simp only [transposeT, houtShape]
  rw [getD_range_map _ _ _ _ ht]
  rw [unflatten3 L R C l r c hr hc, hx]
  have hidx : List.map (fun m => List.getD [l, r, c] (posIn m [0, 2, 1]) 0)
      (List.range (List.length [L, C, R])) = [l, c, r] := rfl
  rw [hidx]
  have hflat : flatIndex [L, C, R] [l, c, r] = l * (C * R) + (c * R + r) := by
    simp [flatIndex, prodL_cons, prodL_nil]
  rw [hflat]

theorem transpose102_entry {α : Type} [Inhabited α] (x : Tensor α) (L C R l c r : Nat)
    (hx : x.shape = [L, C, R]) (hl : l < L) (hc : c < C) (hr : r < R) :
    (transposeT [1, 0, 2] x).data.getD (c * (L * R) + (l * R + r)) default
      = x.data.getD (l * (C * R) + (c * R + r)) default := by
  have houtShape : List.map (fun k => x.shape.getD k 0) [1, 0, 2] = [C, L, R] := by
    rw [hx]; rfl
  have hP : prodL [C, L, R] = C * (L * R) := by simp [prodL_cons, prodL_nil]
  have ht : c * (L * R) + (l * R + r) < prodL [C, L, R] := by
    rw [hP]; exact mul_add_lt hc (mul_add_lt hl hr)
  simp only [transposeT, houtShape]
  rw [getD_range_map _ _ _ _ ht]
  rw [unflatten3 C L R c l r hl hr, hx]
  have hidx : List.map (fun m => List.getD [c, l, r] (posIn m [1, 0, 2]) 0)
      (List.range (List.length [L, C, R])) = [l, c, r] := rfl
  rw [hidx]
  have hflat : flatIndex [L, C, R] [l, c, r] = l * (C * R) + (c * R + r) := by
    simp [flatIndex, prodL_cons, prodL_nil]
  rw [hflat]

theorem splitLast_of_ne_nil (l : List Nat) (h : l ≠ []) :
    ∃ init last, splitLast l = some (init, last) ∧ init.length + 1 = l.length := by
  induction l with
  | nil => exact absurd rfl h
  | cons a rest ih =>
    cases rest with
    | nil => exact ⟨[], a, rfl, rfl⟩
    | cons b t =>
      rcases ih (by simp) with ⟨init, last, hsl, hlen⟩
      refine ⟨a :: init, last, ?_, ?_⟩
      · have hstep : splitLast (a :: b :: t)
            = match splitLast (b :: t) with
              | none => some ([], a)
              | some (init, last) => some (a :: init, last) := rfl
        rw [hstep, hsl]
      · simp at hlen ⊢; omega

theorem moveaxis0_shape_headD {α : Type} [Inhabited α] (x : Tensor α) (s : Nat) :
    (moveaxis0 x s).shape.headD 0 = x.shape.getD s 0 := by
  simp [moveaxis0, transposeT]

theorem flattenOperand_one_eq_claim {α : Type} [Inhabited α] (b : Tensor α) (C R : Nat) :
    flattenOperand b 1 C R = flattenOperandClaim b 1 C R := by
  have hshape : List.map (fun k => List.getD [1, C, R] k 0) [0, 2, 1] = [1, R, C] := rfl
  have hlen : prodL [1, R, C] = 1 * R * C := by
    simp [prodL_cons, prodL_nil]
  simp only [flattenOperand, flattenOperandClaim, reshapeT, transposeT, Tensor.mk.injEq]
  refine ⟨trivial, ?_⟩
  rw [hshape, hlen]
  apply List.map_congr_left
  intro t ht
  have htlt : t < 1 * R * C := List.mem_range.mp ht
  have hC : 0 < C := by
    rcases Nat.eq_zero_or_pos C with h0 | h0
    · subst h0; simp at htlt
    · exact h0
  have hR : 0 < R := by
    rcases Nat.eq_zero_or_pos R with h0 | h0
    · subst h0; simp at htlt
    · exact h0
  have hc : t % C < C := Nat.mod_lt _ hC
  have hr : t / C < R := by
    rw [Nat.div_lt_iff_lt_mul hC]
    calc t < 1 * R * C := htlt
      _ = R * C := by ring
  have hfl : unflatten [1, R, C] t = [0, t / C, t % C] := by
    have h3 := unflatten3 1 R C 0 (t / C) (t % C) hr hc
    rw [Nat.zero_mul, Nat.zero_add, Nat.div_add_mod' t C] at h3
    exact h3
  have hmap : (List.range (List.length [1, C, R])).map (fun m =>
      (unflatten [1, R, C] t).getD (posIn m [0, 2, 1]) 0) = [0, t % C, t / C] := by
    rw [hfl]
    rfl
  rw [hmap]
  have hflat : flatIndex [1, C, R] [0, t % C, t / C] = t % C * R + t / C := by
    simp [flatIndex, prodL_cons, prodL_nil]
  rw [hflat]
  have h1C : 1 * C = C := Nat.one_mul C
  rw [h1C]
  have hl0 : t % C / C = 0 := Nat.div_eq_of_lt hc
  rw [hl0]
  have hidx : (0 * C + t % C) * R + t / C = t % C * R + t / C := by ring
  rw [hidx]

/-! ## The claims -/

/-- C1: the forward-mode rule of `solve`, with any absent tangent first
replaced by an exact zero buffer of the matching shape, returns primal
output `x = solve(Ai, Aj, Ax, b)` and tangent output
`dx = solve(Ai, Aj, Ax, db)`; since the right-hand side does not mention
`dAx`, the matrix-value tangent makes no contribution to `dx`. -/
theorem c1_jvp_primal_and_tangent {α : Type} [Zero α] (K : Kernels α)
    (Ai Aj : Tensor Int) (Ax b : Tensor α)
    (dAi dAj : Tangent Int) (dAx db : Tangent α) :
    solve_f64_value_and_jvp K (Ai, Aj, Ax, b) (dAi, dAj, dAx, db)
      = (solveV K Ai Aj Ax b, solveV K Ai Aj Ax (resolveTan b db)) := rfl

/-- C2: the reverse-mode (transpose) rule of `solve`, when `b` is the
undefined primal, returns `ct_b = solve(Ai, Aj, Ax, ct)` (no transpose of
`A` is taken) and `None` for the cotangents of `Ai`, `Aj` and `Ax`. -/
theorem c2_transpose_rule {α : Type} (K : Kernels α) (ct : Tensor α)
    (Ai Aj : Tensor Int) (Ax : Tensor α) (b : Primal α)
    (h : is_undefined_primal b = true) :
    solve_f64_transpose K ct Ai Aj Ax b
      = Except.ok (none, none, none, some (solveV K Ai Aj Ax ct)) := by
  simp [solve_f64_transpose, h]

theorem c2_transpose_rule_witness :
    is_undefined_primal (Primal.undefined : Primal Int) = true
    ∧ solve_f64_transpose kId bEx AiEx AjEx AxEx Primal.undefined
        = Except.ok (none, none, none, some (solveV kId AiEx AjEx AxEx bEx)) :=
  ⟨rfl, c2_transpose_rule kId bEx AiEx AjEx AxEx Primal.undefined rfl⟩

/-- C4, counterexample: the JVP rule raises no error when a non-zero
tangent is supplied on the structural index arrays `Ai` and `Aj` — at a
concrete input with non-zero index tangents it returns an ordinary
result, identical to the one for zero index tangents, refuting "raises a
configuration error; never silently returns a result". -/
theorem c4_counterexample :
    solve_f64_value_and_jvp kId (AiEx, AjEx, AxEx, bEx)
        (Tangent.tan dAiEx, Tangent.tan dAjEx, Tangent.zero, Tangent.zero)
      = solve_f64_value_and_jvp kId (AiEx, AjEx, AxEx, bEx)
        (Tangent.zero, Tangent.zero, Tangent.zero, Tangent.zero)
    ∧ dAiEx ≠ zerosLike AiEx ∧ dAjEx ≠ zerosLike AjEx :=
  ⟨rfl, by decide, by decide⟩

/-- C4, amended: a differentiation request with tangents on `Ai` or `Aj`
is accepted without any error; the index tangents are silently discarded
— the rule's outputs equal those for zero index tangents. -/
theorem c4_amended_index_tangents_ignored {α : Type} [Zero α] (K : Kernels α)
    (Ai Aj : Tensor Int) (Ax b : Tensor α)
    (dAi dAj : Tangent Int) (dAx db : Tangent α) :
    solve_f64_value_and_jvp K (Ai, Aj, Ax, b) (dAi, dAj, dAx, db)
      = solve_f64_value_and_jvp K (Ai, Aj, Ax, b)
          (Tangent.zero, Tangent.zero, dAx, db) := rfl

/-- C5: if either `Ax` or `b` has a complex element type, `solve` and
`coo_mul_vec` select the complex128 primitive and cast `Ax`, `b` to
complex128 and the indices to int32; otherwise the float64 primitive with
float64/int32 casts.  The result's dtype (abstract evaluation takes the
bound operand's dtype) is complex128 exactly when either input was
complex.  The dispatch is a total function: no element-type combination
raises. -/
theorem c5_dtype_promotion (Ai Aj Ax b : DTensor) :
    solve_dispatch Ai Aj Ax b
      = (if isComplexD Ax.dtype || isComplexD b.dtype then
          (Prim.solve_c128, { dtype := DType.int32 }, { dtype := DType.int32 },
            { dtype := DType.complex128 }, { dtype := DType.complex128 })
        else
          (Prim.solve_f64, { dtype := DType.int32 }, { dtype := DType.int32 },
            { dtype := DType.float64 }, { dtype := DType.float64 }))
    ∧ coo_mul_vec_dispatch Ai Aj Ax b
      = (if isComplexD Ax.dtype || isComplexD b.dtype then
          (Prim.coo_mul_vec_c128, { dtype := DType.int32 }, { dtype := DType.int32 },
            { dtype := DType.complex128 }, { dtype := DType.complex128 })
        else
          (Prim.coo_mul_vec_f64, { dtype := DType.int32 }, { dtype := DType.int32 },
            { dtype := DType.float64 }, { dtype := DType.float64 }))
    ∧ (coo_vec_operation_abstract_eval (solve_dispatch Ai Aj Ax b).2.2.2.2).dtype
      = (if isComplexD Ax.dtype || isComplexD b.dtype then DType.complex128
         else DType.float64) := by
  obtain ⟨da⟩ := Ax
  obtain ⟨db'⟩ := b
  cases da <;> cases db' <;> exact ⟨rfl, rfl, rfl⟩

/-- C10: the forward (JVP) and reverse (transpose) differentiation tables
hold a rule for the float64 solve primitive and for no other primitive:
the complex128 solve primitive and both multiply primitives have no entry,
so differentiating them finds no rule. -/
theorem c10_diff_rules_only_f64_solve (p : Prim) :
    (p ∈ primitive_jvps ↔ p = Prim.solve_f64)
    ∧ (p ∈ primitive_transposes ↔ p = Prim.solve_f64) := by
  cases p <;> simp [primitive_jvps, primitive_transposes]

/-- C3, code bug at the failing input: with `Ax` batched on axis 1 and
`b` batched on axis 0, the batching rule passes `Ax` to the operation
without moving its batch axis to position 0 (the guard on line 258 tests
`ab != 0` instead of `aAx != 0`), while the claim and the spec require
both batch axes aligned to 0.  The operation observed through `opProj`
receives the unmoved `Ax` of shape `[3, 2]`, not the re-axised tensor of
shape `[2, 3]`. -/
theorem c3_failing_input_evaluation :
    coo_vec_operation_vmap opProj (AiEx, AjEx, AxC3, bC3) (none, none, some 1, some 0)
      = Except.ok (AxC3, 0)
    ∧ AxC3.shape = [3, 2]
    ∧ (moveaxis0 AxC3 1).shape = [2, 3]
    ∧ AxC3 ≠ moveaxis0 AxC3 1 := by
  refine ⟨rfl, rfl, by decide, by decide⟩

/-- C9: when `Ax` carries more than one leading batch dimension (its rank
exceeds 2), the lowering stops with the batch-dimension assertion error
before any kernel invocation; no partial result is produced. -/
theorem c9_multi_batch_raises {α : Type} [Inhabited α]
    (kernel : Nat → Nat → Nat → Nat → Tensor Int → Tensor Int → Tensor α → Tensor α → Tensor α)
    (Ai Aj : Tensor Int) (Ax b : Tensor α) (h : 2 < Ax.shape.length) :
    coo_vec_operation_xla kernel Ai Aj Ax b = Except.error XlaErr.assertMaxOneBatch := by
  have hne : Ax.shape ≠ [] := by
    intro h0
    rw [h0] at h
    simp at h
  rcases splitLast_of_ne_nil Ax.shape hne with ⟨init, last, hsl, hlen⟩
  have h2 : 2 ≤ init.length := by omega
  simp [coo_vec_operation_xla, hsl, h2]

theorem c9_multi_batch_raises_witness :
    2 < AxC9.shape.length
    ∧ coo_vec_operation_xla kEx AiEx AjEx AxC9 bEx
        = Except.error XlaErr.assertMaxOneBatch :=
  ⟨by decide, c9_multi_batch_raises kEx AiEx AjEx AxC9 bEx (by decide)⟩

/-- C8: with only `Ax` batched (on any valid axis `aAx`), the batching
rule moves `Ax`'s batch axis to position 0, replicates `b` along a new
leading axis of length equal to the batch count `Ax.shape[aAx]`, invokes
the operation on the broadcast operands, and reports batch axis 0. -/
theorem c8_only_Ax_batched {α : Type} [Inhabited α]
    (op : Tensor Int → Tensor Int → Tensor α → Tensor α → Tensor α)
    (Ai Aj : Tensor Int) (Ax b : Tensor α) (aAx : Nat)
    (hwf : Ax.wf) (haAx : aAx < Ax.shape.length) :
    coo_vec_operation_vmap op (Ai, Aj, Ax, b) (none, none, some aAx, none)
      = Except.ok (op Ai Aj (moveaxis0 Ax aAx)
          (broadcastLead (Ax.shape.getD aAx 0) b), 0) := by
  have hne : Ax.shape ≠ [] := by
    intro h0
    rw [h0] at haAx
    simp at haAx
  by_cases h : aAx = 0
  · subst h
    simp only [coo_vec_operation_vmap, Option.isSome_none, Bool.false_eq_true, if_false,
      ne_eq, not_true_eq_false, if_neg]
    rw [moveaxis0_zero_id Ax hwf hne, getD_zero_headD]
  · simp only [coo_vec_operation_vmap, Option.isSome_none, Bool.false_eq_true, if_false,
      ne_eq, h, not_false_eq_true, if_pos]
    rw [← moveaxis0_shape_headD Ax aAx]

/-- C6: with only `b` batched (on axis `a`), the batching rule moves the
batch axis to position 0, folds the batch and trailing operand axes into
one combined operand-count axis — the operand handed to the operation has
shape `[n_col, n_lhs * n_rhs]` and its entry at position
`(c, l * n_rhs + r)` is the moved operand's entry at `(l, c, r)` —
invokes the operation once, reshapes the result to
`(n_col, n_lhs, *n_rhs_list)` and reports batch axis 1. -/
theorem c6_only_b_batched {α : Type} [Inhabited α]
    (op : Tensor Int → Tensor Int → Tensor α → Tensor α → Tensor α)
    (Ai Aj : Tensor Int) (Ax b : Tensor α) (a L C : Nat) (rest : List Nat)
    (hwf : b.wf) (ha : a < b.shape.length)
    (hb : (moveaxis0 b a).shape = L :: C :: rest) :
    coo_vec_operation_vmap op (Ai, Aj, Ax, b) (none, none, none, some a)
      = Except.ok (reshapeT (op Ai Aj Ax (combineB (moveaxis0 b a) L C (prodL rest)))
          (C :: L :: rest), 1)
    ∧ (combineB (moveaxis0 b a) L C (prodL rest)).shape = [C, L * prodL rest]
    ∧ ∀ c l r, c < C → l < L → r < prodL rest →
        (combineB (moveaxis0 b a) L C (prodL rest)).data.getD
            (c * (L * prodL rest) + (l * prodL rest + r)) default
          = (moveaxis0 b a).data.getD
              (l * (C * prodL rest) + (c * prodL rest + r)) default := by
  have hne : b.shape ≠ [] := by
    intro h0
    rw [h0] at ha
    simp at ha
  refine ⟨?_, rfl, ?_⟩
  · by_cases h : a = 0
    · subst h
      rw [moveaxis0_zero_id b hwf hne] at hb ⊢
      simp [coo_vec_operation_vmap, hb]
    · simp [coo_vec_operation_vmap, h, hb]
  · intro c l r hc hl hr
    exact transpose102_entry (reshapeT (moveaxis0 b a) [L, C, prodL rest])
      L C (prodL rest) l c r rfl hl hc hr

theorem c6_only_b_batched_witness :
    bC6.wf ∧ 0 < bC6.shape.length ∧ (moveaxis0 bC6 0).shape = [2, 2]
    ∧ coo_vec_operation_vmap opProj (AiEx, AjEx, AxEx, bC6) (none, none, none, some 0)
        = Except.ok (reshapeT (opProj AiEx AjEx AxEx (combineB (moveaxis0 bC6 0) 2 2 1))
            [2, 2], 1) :=
  ⟨by decide, by decide, by decide,
    (c6_only_b_batched opProj AiEx AjEx AxEx bC6 0 2 2 [] (by decide) (by decide)
      (by decide)).1⟩

/-- C7, counterexample: the flat operand buffer the lowering hands to the
kernel (`flattenOperand`, lines 131-133) is not laid out
"operand-count-major, batch-second, column-minor" as claimed: at a
concrete batched operand with 2 batches, 1 column and 2 RHS columns the
code's buffer and the claimed layout disagree. -/
theorem c7_counterexample :
    flattenOperand bC7 2 1 2 ≠ flattenOperandClaim bC7 2 1 2
    ∧ (flattenOperand bC7 2 1 2).data = [0, 1, 2, 3]
    ∧ (flattenOperandClaim bC7 2 1 2).data = [0, 2, 1, 3] :=
  ⟨by decide, by decide, by decide⟩

/-- C7, amended: for every matrix-value buffer of shape `[batch?, nnz]`
and operand of shape `[batch?, n_cols, ...trailing]`, the matrix values
are flattened to `[batch * nnz]` (data unchanged, `batch = 1` when
absent), the operand is flattened to a one-dimensional buffer of length
`batch * operand_count * n_cols` in batch-major, operand-count-second,
column-minor order (flat position `l * (n_rhs * n_col) + r * n_col + c`
holds the operand entry for batch `l`, matrix column `c`, operand column
`r`) — an order that in the unbatched case, `batch = 1`, coincides with
the originally claimed operand-count-major, batch-second, column-minor
layout — the kernel is invoked once on these buffers, and its flat
result is inverse-reordered and reshaped to exactly the operand's shape
`[batch?, n_cols, ...trailing]`. -/
theorem c7_amended_lowering_layout {α : Type} [Inhabited α]
    (kernel : Nat → Nat → Nat → Nat → Tensor Int → Tensor Int → Tensor α → Tensor α → Tensor α)
    (Ai Aj : Tensor Int) :
    (∀ (Ax b : Tensor α) (n_lhs Anz n_col : Nat) (rhs_list : List Nat),
      Ax.shape = [n_lhs, Anz] → b.shape = n_lhs :: n_col :: rhs_list →
      coo_vec_operation_xla kernel Ai Aj Ax b
        = Except.ok (unflattenResult
            (kernel n_col n_lhs (prodL rhs_list) Anz Ai Aj
              (reshapeT Ax [n_lhs * Anz])
              (flattenOperand b n_lhs n_col (prodL rhs_list)))
            n_lhs n_col (prodL rhs_list) (n_lhs :: n_col :: rhs_list))
      ∧ (reshapeT Ax [n_lhs * Anz]).shape = [n_lhs * Anz]
      ∧ (reshapeT Ax [n_lhs * Anz]).data = Ax.data
      ∧ (flattenOperand b n_lhs n_col (prodL rhs_list)).shape
          = [n_lhs * prodL rhs_list * n_col]
      ∧ (∀ l c r, l < n_lhs → c < n_col → r < prodL rhs_list →
          (flattenOperand b n_lhs n_col (prodL rhs_list)).data.getD
              (l * (prodL rhs_list * n_col) + (r * n_col + c)) default
            = b.data.getD (l * (n_col * prodL rhs_list) + (c * prodL rhs_list + r)) default)
      ∧ (unflattenResult
            (kernel n_col n_lhs (prodL rhs_list) Anz Ai Aj
              (reshapeT Ax [n_lhs * Anz])
              (flattenOperand b n_lhs n_col (prodL rhs_list)))
            n_lhs n_col (prodL rhs_list) (n_lhs :: n_col :: rhs_list)).shape = b.shape)
    ∧ (∀ (Ax b : Tensor α) (Anz n_col : Nat) (rhs_list : List Nat),
      Ax.shape = [Anz] → b.shape = n_col :: rhs_list →
      coo_vec_operation_xla kernel Ai Aj Ax b
        = Except.ok (unflattenResult
            (kernel n_col 1 (prodL rhs_list) Anz Ai Aj
              (reshapeT Ax [1 * Anz])
              (flattenOperand b 1 n_col (prodL rhs_list)))
            1 n_col (prodL rhs_list) (n_col :: rhs_list))
      ∧ (reshapeT Ax [1 * Anz]).data = Ax.data
      ∧ flattenOperand b 1 n_col (prodL rhs_list)
          = flattenOperandClaim b 1 n_col (prodL rhs_list)
      ∧ (unflattenResult
            (kernel n_col 1 (prodL rhs_list) Anz Ai Aj
              (reshapeT Ax [1 * Anz])
              (flattenOperand b 1 n_col (prodL rhs_list)))
            1 n_col (prodL rhs_list) (n_col :: rhs_list)).shape = b.shape) := by
  constructor
  · intro Ax b n_lhs Anz n_col rhs_list hAx hb
    have h1 : splitLast Ax.shape = some ([n_lhs], Anz) := by rw [hAx]; rfl
    have hP : prodL [n_lhs] = n_lhs := by simp [prodL_cons, prodL_nil]
    refine ⟨?_, rfl, rfl, rfl, ?_, hb.symm⟩
    · simp [coo_vec_operation_xla, h1, hb, hP, xlaCore]
    · intro l c r hl hc hr
      exact transpose021_entry (reshapeT b [n_lhs, n_col, prodL rhs_list])
        n_lhs n_col (prodL rhs_list) l c r rfl hl hc hr
  · intro Ax b Anz n_col rhs_list hAx hb
    have h1 : splitLast Ax.shape = some ([], Anz) := by rw [hAx]; rfl
    refine ⟨?_, rfl, flattenOperand_one_eq_claim b n_col (prodL rhs_list), hb.symm⟩
    simp [coo_vec_operation_xla, h1, hb, prodL_nil, xlaCore]

theorem c7_amended_lowering_layout_witness :
    AxC7.shape = [2, 3] ∧ bC7.shape = [2, 1, 2]
    ∧ coo_vec_operation_xla kEx AiEx AjEx AxC7 bC7
        = Except.ok (unflattenResult
            (kEx 1 2 2 3 AiEx AjEx (reshapeT AxC7 [6]) (flattenOperand bC7 2 1 2))
            2 1 2 [2, 1, 2])
    ∧ AxEx.shape = [2] ∧ bC6.shape = [2, 2]
    ∧ coo_vec_operation_xla kEx AiEx AjEx AxEx bC6
        = Except.ok (unflattenResult
            (kEx 2 1 2 2 AiEx AjEx (reshapeT AxEx [2]) (flattenOperand bC6 1 2 2))
            1 2 2 [2, 2]) :=
  ⟨rfl, rfl,
    ((c7_amended_lowering_layout kEx AiEx AjEx).1 AxC7 bC7 2 3 1 [2] rfl rfl).1,
    rfl, rfl,
    ((c7_amended_lowering_layout kEx AiEx AjEx).2 AxEx bC6 2 2 [2] rfl rfl).1⟩

theorem c8_only_Ax_batched_witness :
    AxC8.wf ∧ 1 < AxC8.shape.length
    ∧ coo_vec_operation_vmap opProj (AiEx, AjEx, AxC8, bEx) (none, none, some 1, none)
        = Except.ok (opProj AiEx AjEx (moveaxis0 AxC8 1)
            (broadcastLead (AxC8.shape.getD 1 0) bEx), 0) :=
  ⟨by decide, by decide,
    c8_only_Ax_batched opProj AiEx AjEx AxC8 bEx 1 (by decide) (by decide)⟩

end Klujax
